import Mathlib

/-!
Verification of the LLM-Python dispatch core (Api.py, models/ModelBase.py and
the four backend variants) against its natural-language specification.

Strings are modelled as `List Char`.  Python's `re.split` with a literal
pattern is modelled by `pySplit`, tuple unpacking of a two-element list by
`unpack2`, `str.strip` by `strip`.  Fallible Python code returns
`Except PyError`.
-/

set_option maxRecDepth 4000

/-- Error conditions raised by the Python code under consideration. -/
inductive PyError
  /-- `ValueError` from unpacking a list whose length is not 2
  (`a, b = re.split(...)` in `ModelBase.split_prompt`). -/
  | valueError
  /-- `KeyError` from `self.locks[model]` when `model` is not a key. -/
  | keyError (k : String)
  /-- The `Exception('The model "..." is not known.')` raised by `Api._get_model`. -/
  | unknownModel (m : String)
  /-- `TypeError` from a constructor call whose arguments do not bind. -/
  | typeError (msg : String)
  /-- A plain `Exception(msg)` raise. -/
  | exception (msg : String)
deriving DecidableEq, Repr

/-- `true` iff an `Except` value is a success. -/
def isOkB {ε α : Type} : Except ε α → Bool
  | Except.ok _ => true
  | Except.error _ => false

instance exceptDecEq {ε α : Type} [DecidableEq ε] [DecidableEq α] :
    DecidableEq (Except ε α) := fun x y =>
  match x, y with
  | Except.ok a, Except.ok b =>
    if h : a = b then isTrue (by rw [h])
    else isFalse (by intro hc; injection hc; exact h (by assumption))
  | Except.ok _, Except.error _ => isFalse (by intro hc; cases hc)
  | Except.error _, Except.ok _ => isFalse (by intro hc; cases hc)
  | Except.error e, Except.error f =>
    if h : e = f then isTrue (by rw [h])
    else isFalse (by intro hc; injection hc; exact h (by assumption))

/-! ### The prompt splitter (`ModelBase.split_prompt`) -/

/-- Python `str.isspace` on the ASCII whitespace characters
(space, tab, newline, carriage return, vertical tab, form feed). -/
def pyIsSpace (c : Char) : Bool :=
  c == ' ' || c == '\t' || c == '\n' || c == '\r' ||
    c == Char.ofNat 11 || c == Char.ofNat 12

/-- Python `str.strip`: drop leading and trailing whitespace. -/
def strip (s : List Char) : List Char :=
  ((s.dropWhile pyIsSpace).reverse.dropWhile pyIsSpace).reverse

/-- Locate the leftmost occurrence of `sep` in `s`: returns the part before
the occurrence and the part after it, or `none` when `sep` does not occur. -/
def findOcc (sep : List Char) : List Char → Option (List Char × List Char)
  | [] => none
  | c :: rest =>
    if sep.isPrefixOf (c :: rest) then some ([], List.drop sep.length (c :: rest))
    else
      match findOcc sep rest with
      | none => none
      | some (pre, post) => some (c :: pre, post)

/-- Split `s` at every non-overlapping leftmost occurrence of `sep`,
consuming at least one character of fuel per occurrence. -/
def splitFuel (sep : List Char) : Nat → List Char → List (List Char)
  | 0, s => [s]
  | fuel + 1, s =>
    match findOcc sep s with
    | none => [s]
    | some (pre, post) => pre :: splitFuel sep fuel post

/-- Python `re.split(pattern, string)` for a literal, special-character-free
pattern: the list of substrings between occurrences of `sep`. -/
def pySplit (sep s : List Char) : List (List Char) :=
  splitFuel sep (s.length + 1) s

/-- Number of non-overlapping leftmost occurrences of `sep`, with fuel. -/
def countFuel (sep : List Char) : Nat → List Char → Nat
  | 0, _ => 0
  | fuel + 1, s =>
    match findOcc sep s with
    | none => 0
    | some (_, post) => countFuel sep fuel post + 1

/-- Number of non-overlapping leftmost occurrences of `sep` in `s`. -/
def countOccs (sep s : List Char) : Nat :=
  countFuel sep (s.length + 1) s

/-- Apostrophe character (kept out of string literals). -/
def apos : Char := Char.ofNat 39

/-- The literal pattern `Rules\n=====` from `ModelBase.split_prompt`. -/
def rulesMarker : List Char := "Rules\n=====".toList

/-- The literal pattern `The Summary of the Commit\n=...=` (25 equals signs). -/
def summaryMarker : List Char :=
  "The Summary of the Commit\n=========================".toList

/-- The literal pattern for the affected-files section title with its
27-equals-signs underline (the title contains an apostrophe). -/
def affectedMarker : List Char :=
  "The Commit".toList ++ [apos] ++ "s affected files\n===========================".toList

/-- The literal pattern `Result\n======` from `ModelBase.split_prompt`. -/
def resultMarker : List Char := "Result\n======".toList

/-- Python tuple unpacking `a, b = l`: succeeds exactly on two-element lists,
otherwise raises `ValueError`. -/
def unpack2 : List (List Char) → Except PyError (List Char × List Char)
  | [a, b] => Except.ok (a, b)
  | _ => Except.error PyError.valueError

/-- The `SplitPrompt` dataclass of `ModelBase.py`. -/
structure SplitPrompt where
  Instructions : List Char
  Rules : List Char
  Summary : List Char
  AffectedFiles : List Char
  Result : List Char
deriving DecidableEq, Repr

/-- `ModelBase.split_prompt`: four successive splits on the literal section
markers, each unpacked into exactly two parts, all five fields stripped. -/
def split_prompt (prompt : List Char) : Except PyError SplitPrompt :=
  match unpack2 (pySplit rulesMarker prompt) with
  | Except.error e => Except.error e
  | Except.ok (instructions, rules_and_more) =>
    match unpack2 (pySplit summaryMarker rules_and_more) with
    | Except.error e => Except.error e
    | Except.ok (rules, summary_and_more) =>
      match unpack2 (pySplit affectedMarker summary_and_more) with
      | Except.error e => Except.error e
      | Except.ok (summary, affected_and_more) =>
        match unpack2 (pySplit resultMarker affected_and_more) with
        | Except.error e => Except.error e
        | Except.ok (affected, result) =>
          Except.ok
            { Instructions := strip instructions
              Rules := strip rules
              Summary := strip summary
              AffectedFiles := strip affected
              Result := strip result }

/-! ### Lemmas about the splitter -/

theorem findOcc_eq (sep : List Char) :
    ∀ s pre post, findOcc sep s = some (pre, post) → s = pre ++ sep ++ post := by
  intro s
  induction s with
  | nil => intro pre post h; simp [findOcc] at h
  | cons c rest ih =>
    intro pre post h
    by_cases hp : sep.isPrefixOf (c :: rest)
    · rw [findOcc, if_pos hp] at h
      obtain ⟨rfl, rfl⟩ : pre = [] ∧ List.drop sep.length (c :: rest) = post := by
        cases h; exact ⟨rfl, rfl⟩
      have hpre : sep <+: c :: rest := by simpa using hp
      obtain ⟨t, ht⟩ := hpre
      simp only [List.nil_append]
      rw [← ht, List.drop_left]
    · rw [findOcc, if_neg hp] at h
      cases hfo : findOcc sep rest with
      | none => rw [hfo] at h; cases h
      | some pp =>
        obtain ⟨pre', post'⟩ := pp
        rw [hfo] at h
        cases h
        have hr := ih pre' post hfo
        simp [hr]

theorem findOcc_eq_none (sep s : List Char) (h : ¬ sep <:+: s) :
    findOcc sep s = none := by
  cases hfo : findOcc sep s with
  | none => rfl
  | some pp =>
    obtain ⟨pre, post⟩ := pp
    exact absurd ⟨pre, post, (findOcc_eq sep s pre post hfo).symm⟩ h

theorem findOcc_post_lt (sep : List Char) (hsep : sep ≠ []) (s pre post : List Char)
    (h : findOcc sep s = some (pre, post)) : post.length < s.length := by
  have he := findOcc_eq sep s pre post h
  have : s.length = pre.length + sep.length + post.length := by
    rw [he]; simp [List.length_append]; omega
  have hlen : 0 < sep.length := List.length_pos.mpr hsep
  omega

theorem mem_splitFuel_sub (sep : List Char) :
    ∀ fuel s t, t ∈ splitFuel sep fuel s → t <:+: s := by
  intro fuel
  induction fuel with
  | zero =>
    intro s t ht
    simp [splitFuel] at ht
    simp [ht]
  | succ f ih =>
    intro s t ht
    rw [splitFuel] at ht
    cases hfo : findOcc sep s with
    | none => rw [hfo] at ht; simp at ht; simp [ht]
    | some pp =>
      obtain ⟨pre, post⟩ := pp
      rw [hfo] at ht
      have hs := findOcc_eq sep s pre post hfo
      rcases List.mem_cons.mp ht with rfl | hmem
      · have hpfx : t <+: s := by
          rw [hs, List.append_assoc]
          exact List.prefix_append t (sep ++ post)
        exact hpfx.isInfix
      · have h1 : t <:+: post := ih post t hmem
        have h2 : post <:+ s := ⟨pre ++ sep, hs.symm⟩
        exact h1.trans h2.isInfix

theorem splitFuel_len (sep : List Char) :
    ∀ fuel s, (splitFuel sep fuel s).length = countFuel sep fuel s + 1 := by
  intro fuel
  induction fuel with
  | zero => intro s; simp [splitFuel, countFuel]
  | succ f ih =>
    intro s
    rw [splitFuel, countFuel]
    cases hfo : findOcc sep s with
    | none => simp
    | some pp =>
      obtain ⟨pre, post⟩ := pp
      simp [ih post]

theorem pySplit_no_occ (sep s : List Char) (h : ¬ sep <:+: s) :
    pySplit sep s = [s] := by
  rw [pySplit, splitFuel, findOcc_eq_none sep s h]

theorem pySplit_len (sep s : List Char) :
    (pySplit sep s).length = countOccs sep s + 1 :=
  splitFuel_len sep (s.length + 1) s

theorem mem_pySplit_sub (sep s t : List Char) (h : t ∈ pySplit sep s) : t <:+: s :=
  mem_splitFuel_sub sep (s.length + 1) s t h

theorem unpack2_ok_iff (l : List (List Char)) (a b : List Char) :
    unpack2 l = Except.ok (a, b) ↔ l = [a, b] := by
  match l with
  | [] => simp [unpack2]
  | [x] => simp [unpack2]
  | [x, y] =>
    simp only [unpack2]
    constructor
    · intro h; cases h; rfl
    · intro h; injection h with h1 h2; injection h2 with h2 h3; rw [h1, h2]
  | x :: y :: z :: rest => simp [unpack2]

theorem unpack2_err (l : List (List Char)) (h : l.length ≠ 2) :
    unpack2 l = Except.error PyError.valueError := by
  match l with
  | [] => rfl
  | [x] => rfl
  | [x, y] => simp at h
  | x :: y :: z :: rest => rfl

theorem dropWhile_idem (p : Char → Bool) :
    ∀ l : List Char, (l.dropWhile p).dropWhile p = l.dropWhile p := by
  intro l
  induction l with
  | nil => rfl
  | cons a l ih =>
    cases hp : p a with
    | true => rw [List.dropWhile_cons_of_pos hp, ih]
    | false =>
      rw [List.dropWhile_cons_of_neg (by simp [hp]),
        List.dropWhile_cons_of_neg (by simp [hp])]

theorem dropWhile_eq_self_of_pfx (p : Char → Bool) (u v : List Char)
    (hu : u.dropWhile p = u) (hv : v <+: u) : v.dropWhile p = v := by
  cases v with
  | nil => rfl
  | cons c t =>
    obtain ⟨w, hw⟩ := hv
    have hcu : u = c :: (t ++ w) := by rw [← hw]; rfl
    have hpc : p c = false := by
      cases hp : p c with
      | false => rfl
      | true =>
        exfalso
        rw [hcu, List.dropWhile_cons_of_pos hp] at hu
        have hlen := congrArg List.length hu
        have hle := (List.dropWhile_sublist p (l := t ++ w)).length_le
        simp only [List.length_cons] at hlen
        omega
    exact List.dropWhile_cons_of_neg (by simp [hpc])

theorem strip_strip (s : List Char) : strip (strip s) = strip s := by
  have hA := dropWhile_idem pyIsSpace
  set u := s.dropWhile pyIsSpace with hu
  have hu_self : u.dropWhile pyIsSpace = u := hA s
  set v := (u.reverse.dropWhile pyIsSpace).reverse with hv
  have hstrip : strip s = v := rfl
  have hvrev : v.reverse.dropWhile pyIsSpace = v.reverse := by
    rw [hv, List.reverse_reverse]
    exact hA u.reverse
  have hvpfx : v <+: u := by
    rw [hv]
    have hsfx : u.reverse.dropWhile pyIsSpace <:+ u.reverse := List.dropWhile_suffix _
    have := List.reverse_prefix.mpr hsfx
    simpa using this
  have hv_self : v.dropWhile pyIsSpace = v := dropWhile_eq_self_of_pfx pyIsSpace u v hu_self hvpfx
  rw [hstrip, strip, hv_self, hvrev, List.reverse_reverse]

/-! ### The backend variants (models/impl/) -/

/-- Two newline characters, as used by the f-strings of the variants. -/
def nl2 : List Char := "\n\n".toList

/-- The fixed final user message of `Mistral8x7BInstructV01.prompt` and
`CodeLLama_xB_Instruct.prompt`. -/
def reportMsgCan : List Char :=
  "Report the percentage to which the given commit can be assigned to each maintenance activity in percent.".toList

/-- The fixed closing sentence of the `use_prompt` f-string of
`Gemma_7B_Instruct.prompt` and `LLama2_xB_Chat.prompt`. -/
def reportMsgShould : List Char :=
  "Report the percentage to which the given commit should be assigned to each maintenance activity in percent.".toList

/-- The `use_prompt` f-string of `Gemma_7B_Instruct.prompt`.  The source
accepts `include_rules` but never reads it: the Rules section is always
interpolated. -/
def gemma_use_prompt (sp : SplitPrompt) (include_rules : Bool) : List Char :=
  sp.Instructions ++ nl2 ++ rulesMarker ++ sp.Rules ++ nl2 ++ summaryMarker ++ nl2 ++
    sp.Summary ++ nl2 ++ affectedMarker ++ nl2 ++ sp.AffectedFiles ++ nl2 ++
    resultMarker ++ reportMsgShould

/-- `Gemma_7B_Instruct.prompt`: split the raw prompt, compose `use_prompt`,
hand it to the opaque generation capability. -/
def gemma_prompt (raw : List Char) (include_rules : Bool) : Except PyError (List Char) :=
  match split_prompt raw with
  | Except.error e => Except.error e
  | Except.ok sp => Except.ok (gemma_use_prompt sp include_rules)

/-- The `use_prompt` f-string of `LLama2_xB_Chat.prompt` (same literal text
as Gemma's). -/
def llama2_use_prompt (sp : SplitPrompt) : List Char :=
  sp.Instructions ++ nl2 ++ rulesMarker ++ sp.Rules ++ nl2 ++ summaryMarker ++ nl2 ++
    sp.Summary ++ nl2 ++ affectedMarker ++ nl2 ++ sp.AffectedFiles ++ nl2 ++
    resultMarker ++ reportMsgShould

/-- `LLama2_xB_Chat.prompt`: raises when `include_rules` is false (before
splitting), otherwise splits and composes `use_prompt`. -/
def llama2_prompt (raw : List Char) (include_rules : Bool) : Except PyError (List Char) :=
  if include_rules then
    match split_prompt raw with
    | Except.error e => Except.error e
    | Except.ok sp => Except.ok (llama2_use_prompt sp)
  else Except.error (PyError.exception "This model does not work correctly without rules.")

/-- The `assistant` string built by `Mistral8x7BInstructV01.prompt`: the Rules
block is prepended only when `include_rules` is true. -/
def mistral_assistant (sp : SplitPrompt) (include_rules : Bool) : List Char :=
  (if include_rules then rulesMarker ++ nl2 ++ sp.Rules ++ nl2 else []) ++
    summaryMarker ++ nl2 ++ sp.Summary ++ nl2 ++ affectedMarker ++ nl2 ++ sp.AffectedFiles

/-- The chat messages composed by `Mistral8x7BInstructV01.prompt`
(role, content). -/
def mistral_messages (sp : SplitPrompt) (include_rules : Bool) : List (String × List Char) :=
  [("user", sp.Instructions), ("assistant", mistral_assistant sp include_rules),
    ("user", reportMsgCan)]

/-- The `system` string built by `CodeLLama_xB_Instruct.prompt`: the Rules
block is inserted only when `include_rules` is true. -/
def codellama_system (sp : SplitPrompt) (include_rules : Bool) : List Char :=
  sp.Instructions ++
    (if include_rules then nl2 ++ rulesMarker ++ nl2 ++ sp.Rules ++ nl2 else []) ++
    summaryMarker ++ nl2 ++ sp.Summary ++ nl2 ++ affectedMarker ++ nl2 ++ sp.AffectedFiles

/-- The chat messages composed by `CodeLLama_xB_Instruct.prompt`. -/
def codellama_messages (sp : SplitPrompt) (include_rules : Bool) : List (String × List Char) :=
  [("system", codellama_system sp include_rules), ("user", reportMsgCan)]

/-- Concatenation of the contents of a list of chat messages: the text handed
to the opaque tokenizer/generator. -/
def serialize_messages (ms : List (String × List Char)) : List Char :=
  ms.foldr (fun m acc => m.2 ++ acc) []

/-! ### The dispatch core (Api.py) -/

/-- A constructed backend instance: its class name and the `size` argument it
was constructed with (`none` for sizeless constructors). -/
structure Backend where
  cls : String
  size : Option String
deriving DecidableEq, Repr

/-- `Api.available_models`: the closed set of known model names. -/
def available_models : List String :=
  ["Mistral8x7BInstructV01", "LLama2_xB_Chat", "CodeLLama_xB_Instruct"]

/-- Python dict lookup on an association list (first matching key). -/
def lookupA {β : Type} (k : String) : List (String × β) → Option β
  | [] => none
  | (k', v) :: rest => if k' = k then some v else lookupA k rest

/-- Python dict update of an existing key on an association list; a missing
key leaves the list unchanged (the code only updates existing keys). -/
def setA {β : Type} (k : String) (v : β) : List (String × β) → List (String × β)
  | [] => []
  | (k', v') :: rest => if k' = k then (k, v) :: rest else (k', v') :: setA k v rest

/-- Number of entries of an association list carrying the key `k`. -/
def countKey (k : String) (l : List (String × Backend)) : Nat :=
  l.countP (fun p => p.1 == k)

/-- The mutable state of one `Api` instance: the registry cache `self.models`
and the per-name semaphore counters `self.locks`. -/
structure ApiState where
  models : List (String × Backend)
  locks : List (String × Nat)
deriving DecidableEq, Repr

/-- `Api.__init__`: empty registry; one binary semaphore (count 1) per known
model name. -/
def initState : ApiState :=
  { models := [], locks := available_models.map (fun m => (m, 1)) }

/-- A backend constructor call `globals()[model](dev=..., **kwargs)`.
`Mistral8x7BInstructV01.__init__` takes no `size`; `LLama2_xB_Chat.__init__`
and `CodeLLama_xB_Instruct.__init__` require a `size` argument, so the call
raises `TypeError` when none is supplied. -/
def construct (name : String) (size : Option String) : Except PyError Backend :=
  if name = "Mistral8x7BInstructV01" then
    match size with
    | none => Except.ok { cls := name, size := none }
    | some _ => Except.error (PyError.typeError "unexpected keyword argument size")
  else if name = "LLama2_xB_Chat" ∨ name = "CodeLLama_xB_Instruct" then
    match size with
    | some sz => Except.ok { cls := name, size := some sz }
    | none => Except.error (PyError.typeError "missing 1 required positional argument: size")
  else Except.error (PyError.typeError "name is not a constructor")

/-- `Api._get_model`: reject names outside the closed set; return the cached
instance when present; otherwise construct and cache one. -/
def get_model (st : ApiState) (model : String) (size : Option String) :
    Except PyError Backend × ApiState :=
  if model ∈ available_models then
    match lookupA model st.models with
    | some b => (Except.ok b, st)
    | none =>
      match construct model size with
      | Except.ok b => (Except.ok b, { st with models := st.models ++ [(model, b)] })
      | Except.error e => (Except.error e, st)
  else (Except.error (PyError.unknownModel model), st)

/-- `self.locks[model].release()`: increment the semaphore counter. -/
def releaseLock (st : ApiState) (model : String) : ApiState :=
  match lookupA model st.locks with
  | none => st
  | some c => { st with locks := setA model (c + 1) st.locks }

/-- `instance.prompt(prompt=prompt)` with the default `include_rules=True`,
dispatched on the instance's class.  The success value is the text composed
for the opaque generation capability. -/
def backend_prompt (b : Backend) (raw : List Char) : Except PyError (List Char) :=
  if b.cls = "Mistral8x7BInstructV01" then
    match split_prompt raw with
    | Except.error e => Except.error e
    | Except.ok sp => Except.ok (serialize_messages (mistral_messages sp true))
  else if b.cls = "LLama2_xB_Chat" then llama2_prompt raw true
  else if b.cls = "CodeLLama_xB_Instruct" then
    match split_prompt raw with
    | Except.error e => Except.error e
    | Except.ok sp => Except.ok (serialize_messages (codellama_messages sp true))
  else Except.ok []

/-- The state of the `Future` a submission returns. -/
inductive FutureVal
  | pending
  | resolved (text : List Char)
  | failed (e : PyError)
deriving DecidableEq, Repr

/-- `true` iff the future has not been resolved. -/
def FutureVal.isPending : FutureVal → Bool
  | FutureVal.pending => true
  | _ => false

/-- How one run of the scheduled task ends: it completes (resolving its
future to a success or failure outcome, with the post-state), or it blocks
forever on the semaphore. -/
inductive TaskResult
  | completed (st : ApiState) (fv : FutureVal)
  | blocked
deriving DecidableEq, Repr

/-- The body of the inner coroutine of `Api.prompt_model`:
`try: acquire lock; resolve backend; generate; set_result
except: set_exception; finally: release when acquired`.
An unknown name raises `KeyError` at `self.locks[model]` before any lock is
acquired; every exception is captured into the future; the lock, once
acquired, is released on every path. -/
def prompt_model_task (st : ApiState) (model : String) (raw : List Char) : TaskResult :=
  match lookupA model st.locks with
  | none => TaskResult.completed st (FutureVal.failed (PyError.keyError model))
  | some cnt =>
    if 0 < cnt then
      let st1 : ApiState := { st with locks := setA model (cnt - 1) st.locks }
      match get_model st1 model none with
      | (Except.error e, st2) => TaskResult.completed (releaseLock st2 model) (FutureVal.failed e)
      | (Except.ok b, st2) =>
        match backend_prompt b raw with
        | Except.error e =>
          TaskResult.completed (releaseLock st2 model) (FutureVal.failed e)
        | Except.ok text =>
          TaskResult.completed (releaseLock st2 model) (FutureVal.resolved text)
    else TaskResult.blocked

/-- The synchronous body of `Api.prompt_model`: create a pending future,
schedule the task, return — no exception is raised to the caller and no
validation of `model` happens before scheduling. -/
def prompt_model (st : ApiState) (model : String) (raw : List Char) :
    Except PyError (FutureVal × (String × List Char)) :=
  Except.ok (FutureVal.pending, (model, raw))

/-- The single-threaded event loop running the scheduled tasks in submission
order.  A blocked task deadlocks the loop: its future and all later futures
stay pending. -/
def run_all (st : ApiState) : List (String × List Char) → ApiState × List FutureVal
  | [] => (st, [])
  | (m, r) :: rest =>
    match prompt_model_task st m r with
    | TaskResult.completed st' fv =>
      let p := run_all st' rest
      (p.1, fv :: p.2)
    | TaskResult.blocked => (st, FutureVal.pending :: rest.map (fun _ => FutureVal.pending))

/-- A sequence of direct `Api._get_model` calls (name and `size` kwarg),
threading the state. -/
def runGets (st : ApiState) : List (String × Option String) → ApiState
  | [] => st
  | (m, kw) :: rest => runGets (get_model st m kw).2 rest

/-! ### Lemmas about the dispatch core -/

theorem lookupA_setA_eq {β : Type} (k : String) (v w : β) :
    ∀ l : List (String × β), lookupA k l = some w → lookupA k (setA k v l) = some v := by
  intro l
  induction l with
  | nil => intro h; cases h
  | cons p rest ih =>
    obtain ⟨k', v'⟩ := p
    intro h
    by_cases hk : k' = k
    · subst hk
      simp [setA, lookupA]
    · rw [lookupA, if_neg hk] at h
      rw [setA, if_neg hk, lookupA, if_neg hk]
      exact ih h

theorem setA_setA {β : Type} (k : String) (v w : β) :
    ∀ l : List (String × β), setA k v (setA k w l) = setA k v l := by
  intro l
  induction l with
  | nil => rfl
  | cons p rest ih =>
    obtain ⟨k', v'⟩ := p
    by_cases hk : k' = k
    · subst hk
      simp [setA]
    · rw [setA, if_neg hk, setA, if_neg hk, setA, if_neg hk, ih]

theorem setA_self {β : Type} (k : String) (v : β) :
    ∀ l : List (String × β), lookupA k l = some v → setA k v l = l := by
  intro l
  induction l with
  | nil => intro h; cases h
  | cons p rest ih =>
    obtain ⟨k', v'⟩ := p
    intro h
    by_cases hk : k' = k
    · subst hk
      rw [lookupA, if_pos rfl] at h
      cases h
      rw [setA, if_pos rfl]
    · rw [lookupA, if_neg hk] at h
      rw [setA, if_neg hk, ih h]

theorem get_model_locks (st : ApiState) (model : String) (size : Option String) :
    (get_model st model size).2.locks = st.locks := by
  rw [get_model]
  by_cases hm : model ∈ available_models
  · rw [if_pos hm]
    cases lookupA model st.models with
    | some b => rfl
    | none =>
      cases construct model size with
      | ok b => rfl
      | error e => rfl
  · rw [if_neg hm]

/-- Completing a task restores the lock table exactly: the lock is released
whenever it was acquired. -/
theorem task_restores_locks (st : ApiState) (model : String) (raw : List Char)
    (st' : ApiState) (fv : FutureVal)
    (h : prompt_model_task st model raw = TaskResult.completed st' fv) :
    st'.locks = st.locks := by
  rw [prompt_model_task] at h
  cases hlk : lookupA model st.locks with
  | none =>
    rw [hlk] at h
    cases h
    rfl
  | some cnt =>
    rw [hlk] at h
    dsimp only at h
    by_cases hc : 0 < cnt
    · rw [if_pos hc] at h
      set st1 : ApiState := { st with locks := setA model (cnt - 1) st.locks } with hst1
      have hl1 : lookupA model st1.locks = some (cnt - 1) :=
        lookupA_setA_eq model (cnt - 1) cnt st.locks hlk
      have hrel : ∀ st2 : ApiState, st2.locks = st1.locks →
          (releaseLock st2 model).locks = st.locks := by
        intro st2 h2
        rw [releaseLock, h2, hl1]
        dsimp only
        show setA model (cnt - 1 + 1) (setA model (cnt - 1) st.locks) = st.locks
        rw [setA_setA]
        have hc1 : cnt - 1 + 1 = cnt := by omega
        rw [hc1, setA_self model cnt st.locks hlk]
      cases hg : get_model st1 model none with
      | mk res st2 =>
        have h2locks : st2.locks = st1.locks := by
          have := get_model_locks st1 model none
          rw [hg] at this
          exact this
        cases res with
        | error e =>
          rw [hg] at h
          cases h
          exact hrel st2 h2locks
        | ok b =>
          rw [hg] at h
          dsimp only at h
          cases hbp : backend_prompt b raw with
          | error e =>
            rw [hbp] at h
            cases h
            exact hrel st2 h2locks
          | ok text =>
            rw [hbp] at h
            cases h
            exact hrel st2 h2locks
    · rw [if_neg hc] at h
      cases h

/-- A task for a name outside the lock table fails at `self.locks[model]`
with a `KeyError`, touching nothing. -/
theorem task_unknown (st : ApiState) (model : String) (raw : List Char)
    (h : lookupA model st.locks = none) :
    prompt_model_task st model raw =
      TaskResult.completed st (FutureVal.failed (PyError.keyError model)) := by
  rw [prompt_model_task, h]

theorem lookupA_init_locks (m : String) (v : Nat)
    (h : lookupA m initState.locks = some v) : v = 1 := by
  simp only [initState, available_models, List.map_cons, List.map_nil, lookupA] at h
  split_ifs at h <;> simp_all

theorem lookupA_init_none (m : String) (h : ¬ m ∈ available_models) :
    lookupA m initState.locks = none := by
  simp only [available_models, List.mem_cons, List.not_mem_nil, or_false, not_or] at h
  obtain ⟨h1, h2, h3⟩ := h
  simp only [initState, available_models, List.map_cons, List.map_nil, lookupA]
  rw [if_neg (by intro hx; exact h1 hx.symm), if_neg (by intro hx; exact h2 hx.symm),
    if_neg (by intro hx; exact h3 hx.symm)]

/-- A first-time task whose constructor call fails completes with that
failure and puts the state back exactly as it was. -/
theorem task_construct_err (st : ApiState) (model : String) (raw : List Char) (e : PyError)
    (hlk : lookupA model st.locks = some 1)
    (hmodels : lookupA model st.models = none)
    (hmem : model ∈ available_models)
    (hcon : construct model none = Except.error e) :
    prompt_model_task st model raw = TaskResult.completed st (FutureVal.failed e) := by
  obtain ⟨ms, lks⟩ := st
  simp only at hlk hmodels
  rw [prompt_model_task, hlk]
  dsimp only
  rw [if_pos Nat.one_pos]
  have hget : get_model { models := ms, locks := setA model (1 - 1) lks } model none =
      (Except.error e, { models := ms, locks := setA model (1 - 1) lks }) := by
    rw [get_model, if_pos hmem]
    dsimp only
    rw [hmodels, hcon]
  rw [hget]
  dsimp only
  have hl0 : lookupA model (setA model (1 - 1) lks) = some (1 - 1) :=
    lookupA_setA_eq model (1 - 1) 1 lks hlk
  rw [releaseLock]
  dsimp only
  rw [hl0]
  dsimp only
  rw [setA_setA]
  norm_num
  rw [setA_self model 1 lks hlk]

/-- `true` iff the task completed and resolved its future. -/
def TaskResult.settled : TaskResult → Bool
  | TaskResult.completed _ fv => !fv.isPending
  | TaskResult.blocked => false

/-- From a state whose lock table is the initial one, a task never blocks and
always resolves its future. -/
theorem task_settles (st : ApiState) (model : String) (raw : List Char)
    (hlk : st.locks = initState.locks) :
    (prompt_model_task st model raw).settled = true := by
  rw [prompt_model_task]
  cases hl : lookupA model st.locks with
  | none => rfl
  | some cnt =>
    have hcnt : cnt = 1 := by
      rw [hlk] at hl
      exact lookupA_init_locks model cnt hl
    subst hcnt
    dsimp only
    rw [if_pos Nat.one_pos]
    cases hg : get_model { st with locks := setA model (1 - 1) st.locks } model none with
    | mk res st2 =>
      cases res with
      | error e => rfl
      | ok b =>
        dsimp only
        cases hbp : backend_prompt b raw with
        | error e => rfl
        | ok text => rfl

theorem run_all_props (reqs : List (String × List Char)) :
    ∀ st : ApiState, st.locks = initState.locks →
      (run_all st reqs).1.locks = initState.locks ∧
      ((run_all st reqs).2.all (fun f => !f.isPending)) = true := by
  induction reqs with
  | nil => intro st hlk; exact ⟨hlk, rfl⟩
  | cons req rest ih =>
    intro st hlk
    obtain ⟨m, r⟩ := req
    have hset := task_settles st m r hlk
    cases ht : prompt_model_task st m r with
    | blocked => rw [ht] at hset; cases hset
    | completed st' fv =>
      have hfv : (!fv.isPending) = true := by
        rw [ht] at hset
        exact hset
      have hlk' : st'.locks = initState.locks := by
        rw [task_restores_locks st m r st' fv ht]
        exact hlk
      have hrest := ih st' hlk'
      rw [run_all, ht]
      refine ⟨hrest.1, ?_⟩
      rw [List.all_cons, hfv, hrest.2]
      rfl

theorem lookupA_none_countKey (k : String) :
    ∀ l : List (String × Backend), lookupA k l = none → countKey k l = 0 := by
  intro l
  induction l with
  | nil => intro _; rfl
  | cons p rest ih =>
    obtain ⟨k', v⟩ := p
    intro h
    by_cases hk : k' = k
    · rw [lookupA, if_pos hk] at h
      cases h
    · rw [lookupA, if_neg hk] at h
      simp only [countKey, List.countP_cons] at *
      have hne : ((k', v).1 == k) = false := by simp [hk]
      rw [hne]
      simp [ih h]

theorem lookupA_some_mem {β : Type} (k : String) (v : β) :
    ∀ l : List (String × β), lookupA k l = some v → (k, v) ∈ l := by
  intro l
  induction l with
  | nil => intro h; cases h
  | cons p rest ih =>
    obtain ⟨k', v'⟩ := p
    intro h
    by_cases hk : k' = k
    · subst hk
      rw [lookupA, if_pos rfl] at h
      cases h
      exact List.mem_cons_self _ _
    · rw [lookupA, if_neg hk] at h
      exact List.mem_cons_of_mem _ (ih h)

/-- Registry invariant: no duplicate cache entries, and only known names are
ever cached. -/
def RegInv (st : ApiState) : Prop :=
  (∀ k, countKey k st.models ≤ 1) ∧ (∀ p ∈ st.models, p.1 ∈ available_models)

theorem regInv_init : RegInv initState := by
  constructor
  · intro k
    simp [initState, countKey]
  · intro p hp
    simp [initState] at hp

theorem regInv_get_model (st : ApiState) (model : String) (size : Option String)
    (h : RegInv st) : RegInv (get_model st model size).2 := by
  rw [get_model]
  by_cases hm : model ∈ available_models
  · rw [if_pos hm]
    cases hl : lookupA model st.models with
    | some b => exact h
    | none =>
      cases hc : construct model size with
      | error e => exact h
      | ok b =>
        dsimp only
        constructor
        · intro k
          simp only [countKey, List.countP_append]
          by_cases hk : model = k
          · subst hk
            have h0 : countKey model st.models = 0 := lookupA_none_countKey model st.models hl
            simp only [countKey] at h0
            simp [h0]
          · have : countKey k st.models ≤ 1 := h.1 k
            simp only [countKey] at this
            simp [hk]
            omega
        · intro p hp
          rcases List.mem_append.mp hp with hin | hin
          · exact h.2 p hin
          · simp at hin
            rw [hin]
            exact hm
  · rw [if_neg hm]
    exact h

theorem regInv_runGets (reqs : List (String × Option String)) :
    ∀ st : ApiState, RegInv st → RegInv (runGets st reqs) := by
  induction reqs with
  | nil => intro st h; exact h
  | cons req rest ih =>
    intro st h
    obtain ⟨m, kw⟩ := req
    rw [runGets]
    exact ih _ (regInv_get_model st m kw h)

theorem get_model_cached (st : ApiState) (model : String) (size : Option String) (b : Backend)
    (hmem : model ∈ available_models) (h : lookupA model st.models = some b) :
    get_model st model size = (Except.ok b, st) := by
  rw [get_model, if_pos hmem, h]

/-! ### Per-model mutual exclusion as a transition system

The tasks submitted for one fixed model name share one
`threading.Semaphore(value=1)` (`Api.__init__` builds one per known name).
Each task acquires it, runs the generation call, and releases it in its
`finally` block.  A configuration is the semaphore counter together with the
phase of every task for that name; steps may interleave arbitrarily. -/

/-- Phase of one scheduled task for a fixed model name. -/
inductive Phase
  /-- Before `self.locks[model].acquire`. -/
  | waiting
  /-- Between `acquire` and the `finally` release: the generation call. -/
  | generating
  /-- After the `finally` release. -/
  | done
deriving DecidableEq, Repr

/-- Number of tasks currently inside the generation call. -/
def countGen (ts : List Phase) : Nat :=
  ts.countP (fun p => p == Phase.generating)

/-- One scheduler step for the tasks of one model name: a waiting task
acquires the semaphore when its counter is positive, or a generating task
finishes and releases it.  A waiting task cannot step while the counter
is zero. -/
inductive LockStep : Nat × List Phase → Nat × List Phase → Prop
  | acquire (s : Nat) (l r : List Phase) :
      LockStep (s + 1, l ++ Phase.waiting :: r) (s, l ++ Phase.generating :: r)
  | finish (s : Nat) (l r : List Phase) :
      LockStep (s, l ++ Phase.generating :: r) (s + 1, l ++ Phase.done :: r)

/-- Configurations reachable from `n` submitted tasks and a fresh binary
semaphore (counter 1, as `Semaphore(value=1)`). -/
def LockReach (n : Nat) (c : Nat × List Phase) : Prop :=
  Relation.ReflTransGen LockStep (1, List.replicate n Phase.waiting) c

theorem lockStep_inv (c d : Nat × List Phase) (hstep : LockStep c d)
    (h : c.1 + countGen c.2 = 1) : d.1 + countGen d.2 = 1 := by
  cases hstep with
  | acquire s l r =>
    simp only [countGen, List.countP_append, List.countP_cons] at *
    simp at *
    omega
  | finish s l r =>
    simp only [countGen, List.countP_append, List.countP_cons] at *
    simp at *
    omega

theorem lockReach_inv (n : Nat) (c : Nat × List Phase) (h : LockReach n c) :
    c.1 + countGen c.2 = 1 := by
  induction h with
  | refl =>
    simp only [countGen]
    rw [List.countP_replicate]
    simp
  | tail _ hstep ih => exact lockStep_inv _ _ hstep ih

/-! ### Claim theorems for the dispatch core -/

/-- C3: for every model name, at most one generation call against that
name's backend is ever executing concurrently: in every configuration the
per-model binary semaphore makes reachable, at most one task for the name is
inside its generation call, whatever the interleaving of scheduled tasks. -/
theorem per_model_mutual_exclusion (n s : Nat) (ts : List Phase)
    (h : LockReach n (s, ts)) : countGen ts ≤ 1 := by
  have hinv := lockReach_inv n (s, ts) h
  simp only at hinv
  omega

theorem per_model_mutual_exclusion_witness :
    countGen [Phase.generating, Phase.waiting] ≤ 1 :=
  per_model_mutual_exclusion 2 0 [Phase.generating, Phase.waiting]
    (Relation.ReflTransGen.single (LockStep.acquire 0 [] [Phase.waiting]))

/-- C5: over any sequence of submissions run by the scheduler from a fresh
`Api`, every future ends resolved or failed (no failure escapes its task and
nothing stays pending), and the lock table ends exactly as it began: the
lock, when acquired, is released regardless of which error occurred. -/
theorem scheduled_failures_captured_lock_released (reqs : List (String × List Char)) :
    ((run_all initState reqs).2.all (fun f => !f.isPending)) = true ∧
    (run_all initState reqs).1.locks = initState.locks := by
  have h := run_all_props reqs initState rfl
  exact ⟨h.2, h.1⟩

/-- C7: a submission for a name outside the closed set acquires no lock,
constructs no backend, leaves the registry cache and the lock table exactly
as they were, and resolves to a failure outcome carrying the unknown name
(the `KeyError` raised by the lock-table lookup). -/
theorem unknown_name_state_unchanged (st : ApiState) (name : String) (raw : List Char)
    (h1 : ¬ name ∈ available_models) (h2 : st.locks = initState.locks) :
    prompt_model_task st name raw =
      TaskResult.completed st (FutureVal.failed (PyError.keyError name)) := by
  apply task_unknown
  rw [h2]
  exact lookupA_init_none name h1

theorem unknown_name_state_unchanged_witness :
    prompt_model_task initState "NotAModel" ['p'] =
      TaskResult.completed initState (FutureVal.failed (PyError.keyError "NotAModel")) :=
  unknown_name_state_unchanged initState "NotAModel" ['p'] (by decide) rfl

/-- C6, corrected: `Api.prompt_model` performs no synchronous validation of
the model name — it always returns a pending future with the task scheduled —
and for an unknown name the scheduled task fails at the lock-table lookup
(`KeyError`), the error being deferred into the future, not raised to the
caller. -/
theorem unknown_model_error_deferred (st : ApiState) (name : String) (raw : List Char)
    (h : lookupA name st.locks = none) :
    prompt_model st name raw = Except.ok (FutureVal.pending, (name, raw)) ∧
    prompt_model_task st name raw =
      TaskResult.completed st (FutureVal.failed (PyError.keyError name)) :=
  ⟨rfl, task_unknown st name raw h⟩

theorem unknown_model_error_deferred_witness :
    prompt_model initState "Gemma_7B_Instruct" ['q'] =
      Except.ok (FutureVal.pending, ("Gemma_7B_Instruct", ['q'])) ∧
    prompt_model_task initState "Gemma_7B_Instruct" ['q'] =
      TaskResult.completed initState
        (FutureVal.failed (PyError.keyError "Gemma_7B_Instruct")) :=
  unknown_model_error_deferred initState "Gemma_7B_Instruct" ['q'] (by decide)

/-- C6's counterexample to the claim as stated: submitting the unknown name
raises nothing synchronously (the call returns a pending future), and the
error surfaces only afterwards, inside the future the scheduler resolves. -/
theorem unknown_model_not_synchronous_cex :
    prompt_model initState "NotAModel" ['r'] =
      Except.ok (FutureVal.pending, ("NotAModel", ['r'])) ∧
    run_all initState [("NotAModel", ['r'])] =
      (initState, [FutureVal.failed (PyError.keyError "NotAModel")]) := by
  constructor
  · rfl
  · decide

/-- C10: the public submission path calls `_get_model` with no construction
arguments, while `LLama2_xB_Chat.__init__` and `CodeLLama_xB_Instruct.__init__`
require a `size`: every first-time submission for those two names resolves to
a failure outcome (a `TypeError`), nothing is cached, and of the known names
only `Mistral8x7BInstructV01` is constructible without arguments. -/
theorem size_required_models_unconstructible (st : ApiState) (raw : List Char)
    (h1 : lookupA "LLama2_xB_Chat" st.models = none)
    (h2 : lookupA "LLama2_xB_Chat" st.locks = some 1)
    (h3 : lookupA "CodeLLama_xB_Instruct" st.models = none)
    (h4 : lookupA "CodeLLama_xB_Instruct" st.locks = some 1) :
    prompt_model_task st "LLama2_xB_Chat" raw =
      TaskResult.completed st (FutureVal.failed
        (PyError.typeError "missing 1 required positional argument: size")) ∧
    prompt_model_task st "CodeLLama_xB_Instruct" raw =
      TaskResult.completed st (FutureVal.failed
        (PyError.typeError "missing 1 required positional argument: size")) ∧
    construct "Mistral8x7BInstructV01" none =
      Except.ok { cls := "Mistral8x7BInstructV01", size := none } := by
  refine ⟨?_, ?_, rfl⟩
  · exact task_construct_err st "LLama2_xB_Chat" raw _ h2 h1 (by decide) rfl
  · exact task_construct_err st "CodeLLama_xB_Instruct" raw _ h4 h3 (by decide) rfl

theorem size_required_models_unconstructible_witness :
    prompt_model_task initState "LLama2_xB_Chat" ['w'] =
      TaskResult.completed initState (FutureVal.failed
        (PyError.typeError "missing 1 required positional argument: size")) ∧
    prompt_model_task initState "CodeLLama_xB_Instruct" ['w'] =
      TaskResult.completed initState (FutureVal.failed
        (PyError.typeError "missing 1 required positional argument: size")) ∧
    construct "Mistral8x7BInstructV01" none =
      Except.ok { cls := "Mistral8x7BInstructV01", size := none } :=
  size_required_models_unconstructible initState ['w'] rfl (by decide) rfl (by decide)

/-- C4, corrected: once a construction has succeeded and been cached, a later
`_get_model` call returns the cached instance with no state change, and the
registry never holds more than one instance per name; but a name whose
construction fails is never cached, so its first call does not cache (see the
counterexample). -/
theorem get_model_single_construction (reqs : List (String × Option String))
    (name : String) (kw : Option String) (b : Backend)
    (h : lookupA name (runGets initState reqs).models = some b) :
    get_model (runGets initState reqs) name kw = (Except.ok b, runGets initState reqs) ∧
    countKey name (runGets initState reqs).models ≤ 1 := by
  have hinv := regInv_runGets reqs initState regInv_init
  have hmem : name ∈ available_models :=
    hinv.2 (name, b) (lookupA_some_mem name b _ h)
  exact ⟨get_model_cached _ name kw b hmem h, hinv.1 name⟩

theorem get_model_single_construction_witness :
    get_model (runGets initState [("Mistral8x7BInstructV01", none)])
        "Mistral8x7BInstructV01" none =
      (Except.ok { cls := "Mistral8x7BInstructV01", size := none },
        runGets initState [("Mistral8x7BInstructV01", none)]) ∧
    countKey "Mistral8x7BInstructV01"
      (runGets initState [("Mistral8x7BInstructV01", none)]).models ≤ 1 :=
  get_model_single_construction [("Mistral8x7BInstructV01", none)]
    "Mistral8x7BInstructV01" none { cls := "Mistral8x7BInstructV01", size := none }
    (by decide)

/-- C4's counterexample to the claim as stated: two successive submissions of
`LLama2_xB_Chat` through the public path both re-run the failing construction
step; the first call does not construct-and-cache an instance, and the second
is not served from any cache — the registry stays empty. -/
theorem first_call_does_not_cache_cex :
    run_all initState [("LLama2_xB_Chat", ['p']), ("LLama2_xB_Chat", ['p'])] =
      (initState,
        [FutureVal.failed (PyError.typeError "missing 1 required positional argument: size"),
          FutureVal.failed (PyError.typeError "missing 1 required positional argument: size")]) ∧
    (run_all initState [("LLama2_xB_Chat", ['p']), ("LLama2_xB_Chat", ['p'])]).1.models = [] := by
  constructor
  · decide
  · decide

/-- C2, corrected for the variants other than Gemma: with
`include_rules=false`, `Mistral8x7BInstructV01` and `CodeLLama_xB_Instruct`
compose messages that do not depend on the Rules field at all (the section is
omitted), and `LLama2_xB_Chat.prompt` raises its unsupported-configuration
exception before doing anything else. -/
theorem include_rules_false_omits_or_fails (i r1 r2 s a z raw : List Char) :
    mistral_messages
        { Instructions := i, Rules := r1, Summary := s, AffectedFiles := a, Result := z }
        false =
      mistral_messages
        { Instructions := i, Rules := r2, Summary := s, AffectedFiles := a, Result := z }
        false ∧
    codellama_messages
        { Instructions := i, Rules := r1, Summary := s, AffectedFiles := a, Result := z }
        false =
      codellama_messages
        { Instructions := i, Rules := r2, Summary := s, AffectedFiles := a, Result := z }
        false ∧
    llama2_prompt raw false =
      Except.error (PyError.exception "This model does not work correctly without rules.") :=
  ⟨rfl, rfl, rfl⟩

/-- C2's counterexample to the claim as stated: `Gemma_7B_Instruct.prompt`
neither omits the Rules section nor fails when `include_rules=false` — the
flag is ignored (same composed text as with `true`) and the composed text
still depends on the Rules field. -/
theorem gemma_includes_rules_cex :
    gemma_use_prompt
        { Instructions := ['i'], Rules := ['r'], Summary := ['s'],
          AffectedFiles := ['a'], Result := ['z'] } false =
      gemma_use_prompt
        { Instructions := ['i'], Rules := ['r'], Summary := ['s'],
          AffectedFiles := ['a'], Result := ['z'] } true ∧
    gemma_use_prompt
        { Instructions := ['i'], Rules := ['r'], Summary := ['s'],
          AffectedFiles := ['a'], Result := ['z'] } false ≠
      gemma_use_prompt
        { Instructions := ['i'], Rules := ['q'], Summary := ['s'],
          AffectedFiles := ['a'], Result := ['z'] } false := by
  exact ⟨rfl, by decide⟩

/-! ### Claim theorems for the prompt splitter -/

/-- The text after the Rules marker, as `split_prompt` computes it (second
element of the first split). -/
def seg2 (p : List Char) : List Char := (pySplit rulesMarker p).getD 1 []

/-- The text after the Summary marker within `seg2`. -/
def seg3 (p : List Char) : List Char := (pySplit summaryMarker (seg2 p)).getD 1 []

/-- The text after the affected-files marker within `seg3`. -/
def seg4 (p : List Char) : List Char := (pySplit affectedMarker (seg3 p)).getD 1 []

theorem unpack2_error_len (l : List (List Char)) (e : PyError)
    (h : unpack2 l = Except.error e) : l.length ≠ 2 := by
  intro hlen
  obtain ⟨a, b, rfl⟩ := List.length_eq_two.mp hlen
  cases h

theorem count_one_len (sep s : List Char) :
    countOccs sep s = 1 ↔ (pySplit sep s).length = 2 := by
  rw [pySplit_len]
  omega

theorem count_zero_of_no_occ (sep s : List Char) (h : ¬ sep <:+: s) :
    countOccs sep s = 0 := by
  have hl := pySplit_len sep s
  rw [pySplit_no_occ sep s h] at hl
  simp at hl
  omega

theorem occ_of_count_pos (sep s : List Char) (h : 0 < countOccs sep s) :
    sep <:+: s := by
  rw [countOccs, countFuel] at h
  cases hfo : findOcc sep s with
  | none => rw [hfo] at h; simp at h
  | some pp =>
    obtain ⟨pre, post⟩ := pp
    have := findOcc_eq sep s pre post hfo
    exact ⟨pre, post, this.symm⟩

theorem seg_sub (sep s : List Char) (h : countOccs sep s = 1) :
    (pySplit sep s).getD 1 [] <:+: s := by
  have hlen : (pySplit sep s).length = 2 := (count_one_len sep s).mp h
  obtain ⟨a, b, hab⟩ := List.length_eq_two.mp hlen
  apply mem_pySplit_sub sep s
  rw [hab]
  simp

theorem split_prompt_ok_char (p : List Char) :
    isOkB (split_prompt p) = true ↔
      (countOccs rulesMarker p = 1 ∧ countOccs summaryMarker (seg2 p) = 1 ∧
        countOccs affectedMarker (seg3 p) = 1 ∧ countOccs resultMarker (seg4 p) = 1) := by
  simp only [seg2, seg3, seg4]
  rw [split_prompt]
  cases h1 : unpack2 (pySplit rulesMarker p) with
  | error e =>
    constructor
    · intro hf; simp [isOkB] at hf
    · rintro ⟨hc1, -, -, -⟩
      exact absurd ((count_one_len rulesMarker p).mp hc1) (unpack2_error_len _ e h1)
  | ok pr =>
    obtain ⟨i0, rm⟩ := pr
    dsimp only
    have hpr : pySplit rulesMarker p = [i0, rm] := (unpack2_ok_iff _ i0 rm).mp h1
    have hc1 : countOccs rulesMarker p = 1 :=
      (count_one_len rulesMarker p).mpr (by rw [hpr]; rfl)
    rw [hpr]
    simp only [List.getD_cons_succ, List.getD_cons_zero]
    cases h2 : unpack2 (pySplit summaryMarker rm) with
    | error e =>
      constructor
      · intro hf; simp [isOkB] at hf
      · rintro ⟨-, hc2, -, -⟩
        exact absurd ((count_one_len summaryMarker rm).mp hc2) (unpack2_error_len _ e h2)
    | ok pr2 =>
      obtain ⟨r0, sm⟩ := pr2
      dsimp only
      have hpr2 : pySplit summaryMarker rm = [r0, sm] := (unpack2_ok_iff _ r0 sm).mp h2
      have hc2 : countOccs summaryMarker rm = 1 :=
        (count_one_len summaryMarker rm).mpr (by rw [hpr2]; rfl)
      rw [hpr2]
      simp only [List.getD_cons_succ, List.getD_cons_zero]
      cases h3 : unpack2 (pySplit affectedMarker sm) with
      | error e =>
        constructor
        · intro hf; simp [isOkB] at hf
        · rintro ⟨-, -, hc3, -⟩
          exact absurd ((count_one_len affectedMarker sm).mp hc3) (unpack2_error_len _ e h3)
      | ok pr3 =>
        obtain ⟨s0, am⟩ := pr3
        dsimp only
        have hpr3 : pySplit affectedMarker sm = [s0, am] := (unpack2_ok_iff _ s0 am).mp h3
        have hc3 : countOccs affectedMarker sm = 1 :=
          (count_one_len affectedMarker sm).mpr (by rw [hpr3]; rfl)
        rw [hpr3]
        simp only [List.getD_cons_succ, List.getD_cons_zero]
        cases h4 : unpack2 (pySplit resultMarker am) with
        | error e =>
          constructor
          · intro hf; simp [isOkB] at hf
          · rintro ⟨-, -, -, hc4⟩
            exact absurd ((count_one_len resultMarker am).mp hc4) (unpack2_error_len _ e h4)
        | ok pr4 =>
          obtain ⟨a0, z0⟩ := pr4
          dsimp only
          have hc4 : countOccs resultMarker am = 1 :=
            (count_one_len resultMarker am).mpr
              (by rw [(unpack2_ok_iff _ a0 z0).mp h4]; rfl)
          simp [isOkB, hc1, hc2, hc3, hc4]

/-- C9, amended: `split_prompt` succeeds exactly when each marker literal
occurs exactly once as a substring of the segment split at its stage — the
surrounding line shape is irrelevant, so an underline with extra `=`
characters still matches (the literal occurs as a prefix of it), while an
underline with fewer `=` characters does not contain the literal and fails. -/
theorem split_prompt_isOk_iff (p : List Char) :
    isOkB (split_prompt p) = true ↔
      (countOccs rulesMarker p = 1 ∧ countOccs summaryMarker (seg2 p) = 1 ∧
        countOccs affectedMarker (seg3 p) = 1 ∧ countOccs resultMarker (seg4 p) = 1) :=
  split_prompt_ok_char p

/-- C1, amended: a raw prompt missing any one of the four markers makes
`split_prompt` raise (the unpacking `ValueError`), as does the Rules marker
occurring twice in the prompt, or the Summary, affected-files or Result
marker occurring twice within the segment split at its stage (`seg2`,
`seg3`, `seg4` respectively); a duplicate of a later marker lying before an
earlier marker raises nothing (see the counterexample). -/
theorem split_prompt_malformed_fails (prompt : List Char)
    (h : ¬ rulesMarker <:+: prompt ∨ 2 ≤ countOccs rulesMarker prompt ∨
      ¬ summaryMarker <:+: prompt ∨ 2 ≤ countOccs summaryMarker (seg2 prompt) ∨
      ¬ affectedMarker <:+: prompt ∨ 2 ≤ countOccs affectedMarker (seg3 prompt) ∨
      ¬ resultMarker <:+: prompt ∨ 2 ≤ countOccs resultMarker (seg4 prompt)) :
    isOkB (split_prompt prompt) = false := by
  cases hv : isOkB (split_prompt prompt) with
  | false => rfl
  | true =>
    exfalso
    obtain ⟨hc1, hc2, hc3, hc4⟩ := (split_prompt_ok_char prompt).mp hv
    have hseg2 : seg2 prompt <:+: prompt := by
      rw [seg2]
      exact seg_sub rulesMarker prompt hc1
    have hseg3 : seg3 prompt <:+: prompt := by
      rw [seg3]
      exact (seg_sub summaryMarker (seg2 prompt) hc2).trans hseg2
    have hseg4 : seg4 prompt <:+: prompt := by
      rw [seg4]
      exact (seg_sub affectedMarker (seg3 prompt) hc3).trans hseg3
    rcases h with h | h | h | h | h | h | h | h
    · exact h (occ_of_count_pos rulesMarker prompt (by omega))
    · omega
    · exact h ((occ_of_count_pos summaryMarker (seg2 prompt) (by omega)).trans hseg2)
    · omega
    · exact h ((occ_of_count_pos affectedMarker (seg3 prompt) (by omega)).trans hseg3)
    · omega
    · exact h ((occ_of_count_pos resultMarker (seg4 prompt) (by omega)).trans hseg4)
    · omega

theorem split_prompt_malformed_fails_witness :
    isOkB (split_prompt ['x']) = false :=
  split_prompt_malformed_fails ['x'] (Or.inl (by decide))

/-- A prompt in which the Summary marker occurs twice, once before the Rules
marker and once after it. -/
def dupMarkerPrompt : List Char :=
  ['A'] ++ summaryMarker ++ ['B'] ++ rulesMarker ++ ['C'] ++ summaryMarker ++
    ['D'] ++ affectedMarker ++ ['E'] ++ resultMarker ++ ['F']

/-- C1's counterexample to the claim as stated: a marker (the Summary marker)
occurs twice in the raw prompt, yet `split_prompt` succeeds — the first
occurrence is consumed into the Instructions field by the earlier split. -/
theorem dup_marker_still_splits_cex :
    countOccs summaryMarker dupMarkerPrompt = 2 ∧
    isOkB (split_prompt dupMarkerPrompt) = true := by
  constructor
  · decide
  · decide

/-- C8, amended: whenever `split_prompt` succeeds, each of the five returned
fields is trimmed of leading and trailing whitespace (stripping is
idempotent on them); the fields need not be non-empty. -/
theorem split_prompt_fields_stripped (p : List Char) (sp : SplitPrompt)
    (h : split_prompt p = Except.ok sp) :
    strip sp.Instructions = sp.Instructions ∧ strip sp.Rules = sp.Rules ∧
    strip sp.Summary = sp.Summary ∧ strip sp.AffectedFiles = sp.AffectedFiles ∧
    strip sp.Result = sp.Result := by
  rw [split_prompt] at h
  cases h1 : unpack2 (pySplit rulesMarker p) with
  | error e => rw [h1] at h; cases h
  | ok pr =>
    obtain ⟨i0, rm⟩ := pr
    rw [h1] at h
    dsimp only at h
    cases h2 : unpack2 (pySplit summaryMarker rm) with
    | error e => rw [h2] at h; cases h
    | ok pr2 =>
      obtain ⟨r0, sm⟩ := pr2
      rw [h2] at h
      dsimp only at h
      cases h3 : unpack2 (pySplit affectedMarker sm) with
      | error e => rw [h3] at h; cases h
      | ok pr3 =>
        obtain ⟨s0, am⟩ := pr3
        rw [h3] at h
        dsimp only at h
        cases h4 : unpack2 (pySplit resultMarker am) with
        | error e => rw [h4] at h; cases h
        | ok pr4 =>
          obtain ⟨a0, z0⟩ := pr4
          rw [h4] at h
          dsimp only at h
          cases h
          exact ⟨strip_strip i0, strip_strip r0, strip_strip s0,
            strip_strip a0, strip_strip z0⟩

/-- A well-formed prompt whose sections carry surrounding whitespace. -/
def spacedPrompt : List Char :=
  "u ".toList ++ rulesMarker ++ " v ".toList ++ summaryMarker ++ " w ".toList ++
    affectedMarker ++ " x ".toList ++ resultMarker ++ " y ".toList

theorem split_prompt_fields_stripped_witness :
    strip (SplitPrompt.mk ['u'] ['v'] ['w'] ['x'] ['y']).Instructions =
        (SplitPrompt.mk ['u'] ['v'] ['w'] ['x'] ['y']).Instructions ∧
      strip (SplitPrompt.mk ['u'] ['v'] ['w'] ['x'] ['y']).Rules =
        (SplitPrompt.mk ['u'] ['v'] ['w'] ['x'] ['y']).Rules ∧
      strip (SplitPrompt.mk ['u'] ['v'] ['w'] ['x'] ['y']).Summary =
        (SplitPrompt.mk ['u'] ['v'] ['w'] ['x'] ['y']).Summary ∧
      strip (SplitPrompt.mk ['u'] ['v'] ['w'] ['x'] ['y']).AffectedFiles =
        (SplitPrompt.mk ['u'] ['v'] ['w'] ['x'] ['y']).AffectedFiles ∧
      strip (SplitPrompt.mk ['u'] ['v'] ['w'] ['x'] ['y']).Result =
        (SplitPrompt.mk ['u'] ['v'] ['w'] ['x'] ['y']).Result :=
  split_prompt_fields_stripped spacedPrompt
    (SplitPrompt.mk ['u'] ['v'] ['w'] ['x'] ['y']) (by decide)

/-- A prompt with each marker exactly once and nothing between the markers. -/
def emptySectionsPrompt : List Char :=
  ['x'] ++ rulesMarker ++ summaryMarker ++ affectedMarker ++ resultMarker

/-- C8's counterexample to the claim as stated: each of the four markers
occurs exactly once, `split_prompt` succeeds, yet four of the five fields are
empty — the non-emptiness part of the claim fails. -/
theorem empty_fields_cex :
    countOccs rulesMarker emptySectionsPrompt = 1 ∧
    countOccs summaryMarker emptySectionsPrompt = 1 ∧
    countOccs affectedMarker emptySectionsPrompt = 1 ∧
    countOccs resultMarker emptySectionsPrompt = 1 ∧
    split_prompt emptySectionsPrompt =
      Except.ok (SplitPrompt.mk ['x'] [] [] [] []) := by
  refine ⟨by decide, by decide, by decide, by decide, by decide⟩

/-- A prompt whose Rules underline has six `=` characters instead of five. -/
def overlinePrompt : List Char :=
  ['i'] ++ rulesMarker ++ ['='] ++ ['r'] ++ summaryMarker ++ ['s'] ++
    affectedMarker ++ ['a'] ++ resultMarker ++ ['z']

/-- C9's counterexample to the claim as stated: the Rules underline of this
prompt is `======` (six `=`, one more than the title's width), deviating from
the exact wire-format literal, yet `split_prompt` succeeds, because the
five-`=` literal still occurs as a substring (the extra `=` lands in the
Rules field). -/
theorem longer_underline_still_splits_cex :
    countOccs ("Rules\n======".toList) overlinePrompt = 1 ∧
    split_prompt overlinePrompt =
      Except.ok (SplitPrompt.mk ['i'] ['=', 'r'] ['s'] ['a'] ['z']) := by
  refine ⟨by decide, by decide⟩
